import Mathlib

/-!
# Key-validating provider simulator

A shallow embedding of `simulator/main.go`: the suffix-matching dispatcher,
the `X-Provider-Api-Key` check and the three response builders.

Modelling conventions.

* A Go `string` is a sequence of bytes (`GoString`); `len`, slicing and
  `strings.HasSuffix` all work on bytes, as in Go.
* A slice expression whose bounds are out of range panics; fallible code
  returns `Except Panic _`.  When a handler panics, `net/http` recovers, logs
  and closes the connection: no response is delivered.
* `http.ResponseWriter` is explicit state: the header map, the status code
  (fixed by the first `WriteHeader`, implicitly 200 at the first write) and
  the payloads written so far.  A payload written through
  `json.NewEncoder(w).Encode(v)` is recorded as the JSON value the written
  text denotes: the value `v` handed to the encoder, in which `encoding/json`
  has replaced every byte of a string that is not part of a valid UTF-8
  sequence by U+FFFD.  The members of an object are kept in source order;
  they are read by name, so the order in which the encoder writes them plays
  no part.
* The environment of one request (`Env`) supplies what the handler reads
  from outside the program: the decoder applied to the body, the three
  `rand.Intn` draws and the two readings of the clock.  The handlers are
  defined for any decoder; `jsonDecodeModel` is the decoder of
  `encoding/json` for the one-field struct of `handleChatCompletions`, and the
  statements about the body are made for it.
-/

namespace ProviderSim

set_option maxRecDepth 8192

/-! ## Strings -/

/-- A Go string: an immutable sequence of bytes. -/
abbrev GoString := List UInt8

/-- A string literal of the source, as its UTF-8 bytes. -/
def str (s : String) : GoString := s.toUTF8.data.toList

/-- Runtime panics of the program: an out-of-range slice expression. -/
inductive Panic where
  | sliceBoundsOutOfRange (index : Int) (length : Nat)
  deriving DecidableEq, Repr

/-- The slice expression `s[:hi]`: panics unless `0 ≤ hi ≤ len(s)`. -/
def sliceTo (s : GoString) (hi : Int) : Except Panic GoString :=
  if 0 ≤ hi ∧ hi ≤ (s.length : Int) then .ok (s.take hi.toNat)
  else .error (.sliceBoundsOutOfRange hi s.length)

/-- The slice expression `s[lo:]`: panics unless `0 ≤ lo ≤ len(s)`. -/
def sliceFrom (s : GoString) (lo : Int) : Except Panic GoString :=
  if 0 ≤ lo ∧ lo ≤ (s.length : Int) then .ok (s.drop lo.toNat)
  else .error (.sliceBoundsOutOfRange lo s.length)

/-- Go's `strings.HasSuffix`:
`len(s) >= len(suffix) && s[len(s)-len(suffix):] == suffix`. -/
def HasSuffix (s suffix : GoString) : Bool :=
  decide (s.length ≥ suffix.length) && (s.drop (s.length - suffix.length) == suffix)

/-- Go's `%d` verb for an integer. -/
def fmtInt (n : Int) : GoString := str (toString n)

/-- Go's `utf8.DecodeRuneInString` at the head of `s`, as the width of the
valid UTF-8 sequence that starts `s`; 0 stands for `RuneError` with width 1
(an invalid or truncated sequence). The second byte must lie in the range the
first byte accepts (no overlong forms, no surrogates, nothing above
U+10FFFF); further bytes must lie in `0x80..0xBF`. -/
def validRuneLen (s : GoString) : Nat :=
  match s with
  | [] => 0
  | b0 :: rest =>
    if b0 < 0x80 then 1
    else if b0 < 0xC2 then 0
    else if b0 < 0xE0 then
      match rest with
      | b1 :: _ => if 0x80 ≤ b1 ∧ b1 ≤ 0xBF then 2 else 0
      | _ => 0
    else if b0 < 0xF0 then
      match rest with
      | b1 :: b2 :: _ =>
        if (if b0 = 0xE0 then 0xA0 else 0x80) ≤ b1 ∧ b1 ≤ (if b0 = 0xED then 0x9F else 0xBF)
            ∧ 0x80 ≤ b2 ∧ b2 ≤ 0xBF then 3 else 0
      | _ => 0
    else if b0 < 0xF5 then
      match rest with
      | b1 :: b2 :: b3 :: _ =>
        if (if b0 = 0xF0 then 0x90 else 0x80) ≤ b1 ∧ b1 ≤ (if b0 = 0xF4 then 0x8F else 0xBF)
            ∧ 0x80 ≤ b2 ∧ b2 ≤ 0xBF ∧ 0x80 ≤ b3 ∧ b3 ≤ 0xBF then 4 else 0
      | _ => 0
    else 0

/-- The UTF-8 encoding `EF BF BD` of the replacement rune U+FFFD. -/
def replacementRune : GoString := [0xEF, 0xBF, 0xBD]

/-- The loop of `encoding/json` over a string: `keep` bytes of a sequence
already found valid are copied; otherwise the sequence at the head is copied
when valid, and an invalid byte is replaced by U+FFFD. -/
def replaceInvalid (keep : Nat) (s : GoString) : GoString :=
  match keep, s with
  | _, [] => []
  | k + 1, b :: rest => b :: replaceInvalid k rest
  | 0, b :: rest =>
    match validRuneLen (b :: rest) with
    | 0 => replacementRune ++ replaceInvalid 0 rest
    | n + 1 => b :: replaceInvalid n rest

/-- A Go string as `encoding/json` writes it: coerced to valid UTF-8,
every invalid byte replaced by U+FFFD. -/
def coerceToValidUTF8 (s : GoString) : GoString := replaceInvalid 0 s

/-! ## JSON values, requests and the response writer -/

/-- The values the handlers hand to `json.Encoder.Encode`. -/
inductive JsonValue where
  | string (s : GoString)
  | number (n : Int)
  | bool (b : Bool)
  | array (items : List JsonValue)
  | object (fields : List (GoString × JsonValue))

/-- The member of an object stored under `key`, if any. -/
def JsonValue.get? (v : JsonValue) (key : GoString) : Option JsonValue :=
  match v with
  | .object fields => fields.lookup key
  | _ => none

/-- The value reached from `v` by following object keys in turn. -/
def JsonValue.getPath (v : JsonValue) (keys : List GoString) : Option JsonValue :=
  match keys with
  | [] => some v
  | k :: ks =>
    match v.get? k with
    | some c => c.getPath ks
    | none => none

mutual
/-- The JSON value denoted by the text `encoding/json` writes for `v`:
every string, object keys included, is coerced to valid UTF-8. -/
def JsonValue.encoded : JsonValue → JsonValue
  | .string s => .string (coerceToValidUTF8 s)
  | .number n => .number n
  | .bool b => .bool b
  | .array items => .array (JsonValue.encodedItems items)
  | .object fields => .object (JsonValue.encodedFields fields)
/-- The elements of an array, each as written. -/
def JsonValue.encodedItems : List JsonValue → List JsonValue
  | [] => []
  | v :: rest => v.encoded :: JsonValue.encodedItems rest
/-- The members of an object, each as written. -/
def JsonValue.encodedFields : List (GoString × JsonValue) → List (GoString × JsonValue)
  | [] => []
  | (k, v) :: rest => (coerceToValidUTF8 k, v.encoded) :: JsonValue.encodedFields rest
end

/-- What a handler writes to the response body. -/
inductive Payload where
  | json (v : JsonValue)
  | text (s : GoString)

/-- The state of an `http.ResponseWriter`. -/
structure ResponseWriter where
  header : List (GoString × GoString)
  status : Option Nat
  body : List Payload

/-- The writer a handler receives: nothing set, nothing written. -/
def ResponseWriter.fresh : ResponseWriter := ⟨[], none, []⟩

/-- The call `w.Header().Set(key, value)`. -/
def ResponseWriter.Set (w : ResponseWriter) (key value : GoString) : ResponseWriter :=
  { w with header := (key, value) :: w.header.filter (fun e => e.1 != key) }

/-- The call `w.WriteHeader(code)`: the first call fixes the status. -/
def ResponseWriter.WriteHeader (w : ResponseWriter) (code : Nat) : ResponseWriter :=
  match w.status with
  | some _ => w
  | none => { w with status := some code }

/-- A write to the body: sends status 200 first when no status was sent. -/
def ResponseWriter.Write (w : ResponseWriter) (p : Payload) : ResponseWriter :=
  let w1 := w.WriteHeader 200
  { w1 with body := w1.body ++ [p] }

/-- The call `json.NewEncoder(w).Encode(v)`: the body receives the text
of `v`, recorded as the JSON value that text denotes. -/
def ResponseWriter.Encode (w : ResponseWriter) (v : JsonValue) : ResponseWriter :=
  w.Write (.json v.encoded)

/-- The JSON value of the response body, when exactly one was written. -/
def ResponseWriter.jsonBody (w : ResponseWriter) : Option JsonValue :=
  match w.body with
  | [.json v] => some v
  | _ => none

/-- Request headers `http.Header`, keyed by canonical header name. -/
structure Header where
  entries : List (GoString × List GoString)

/-- Go's `Header.Get`: the first value stored under `key`, or `""`. -/
def Header.Get (h : Header) (key : GoString) : GoString :=
  match h.entries.lookup key with
  | some (v :: _) => v
  | _ => []

/-- The parts of `*http.Request` the program reads. -/
structure Request where
  path : GoString
  header : Header
  body : GoString

/-- The command-line flags `--port`, `--api-key` and `--model`. -/
structure Config where
  port : Int
  apiKey : GoString
  model : GoString

/-- The four canned sentences of `handleChatCompletions`. -/
def responses : List GoString :=
  [ str "Today it is partially cloudy and raining. Testing, testing 1,2,3",
    str "The API key was validated successfully. This is a simulated response.",
    str "Hello from the key-validating provider simulator!",
    str "External model inference is working end-to-end with API key injection." ]

/-- What one request reads from outside the program.

* `decodeModel body` is the outcome of
  `json.NewDecoder(r.Body).Decode(&req)` on a zero-valued `req`: the value of
  `req.Model` afterwards, and whether `Decode` returned an error; the decoder
  of `encoding/json` is `jsonDecodeModel`;
* `promptDraw`, `completionDraw`, `pickDraw` are the results of
  `rand.Intn(5)`, `rand.Intn(20)` and `rand.Intn(len(responses))`, each in
  its half-open range `[0, n)`;
* `nowUnixNano` and `nowUnix` are `time.Now().UnixNano()` and
  `time.Now().Unix()`. -/
structure Env where
  decodeModel : GoString → GoString × Bool
  promptDraw : Fin 5
  completionDraw : Fin 20
  pickDraw : Fin responses.length
  nowUnixNano : Int
  nowUnix : Int

/-! ## The request body: `encoding/json` decoding into `struct { Model string }`

`handleChatCompletions` calls `json.NewDecoder(r.Body).Decode(&req)` with
`req` of type `struct { Model string "json:model" }`. The definitions below
follow `encoding/json`: the byte-by-byte scanner with its stack of parse
states, the `Decoder` loop that stops at the end of the first top-level
value, and the assignment of the members of a top-level object to the one
field `Model`. -/

/-- The entries of the scanner's stack: inside an object before a member
name, inside an object before or after a member value, inside an array. -/
inductive ParseState where
  | objectKey
  | objectValue
  | arrayValue
  deriving DecidableEq, Repr

/-- The scanner's step functions. `inStringEscU n` has read `n` of the four
hex digits of a `\u` escape; `literal rest` still expects the bytes `rest` of
`true`, `false` or `null`. -/
inductive Step where
  | beginValue
  | beginValueOrEmpty
  | beginStringOrEmpty
  | beginString
  | endValue
  | endTop
  | inString
  | inStringEsc
  | inStringEscU (seen : Nat)
  | neg
  | zero
  | one
  | dot
  | dot0
  | exp
  | expSign
  | exp0
  | literal (rest : GoString)
  deriving DecidableEq, Repr

/-- The kind of the top-level value, once its first byte was read. -/
inductive TopKind where
  | unknown
  | object
  | null
  | other
  deriving DecidableEq, Repr

/-- The scanner together with what decoding into `req` keeps: the name of
the current member of the top-level object, the string literal being read,
the field `Model` and whether an `UnmarshalTypeError` was saved. -/
structure Decoder where
  step : Step
  parseState : List ParseState
  top : TopKind
  key : GoString
  cur : GoString
  model : GoString
  typeError : Bool
  deriving DecidableEq, Repr

/-- The outcome of one byte: read on, the top-level value is complete, or a
syntax error. -/
inductive Scan where
  | more (d : Decoder)
  | done (d : Decoder)
  | fail
  deriving DecidableEq, Repr

/-- The scanner's `maxNestingDepth`. -/
def maxNestingDepth : Nat := 10000

/-- The scanner's `isSpace`: space, tab, carriage return, line feed. -/
def isSpace (c : UInt8) : Bool := c == 0x20 || c == 0x09 || c == 0x0D || c == 0x0A

/-- A decimal digit `0`..`9`. -/
def isDigit (c : UInt8) : Bool := decide (0x30 ≤ c ∧ c ≤ 0x39)

/-- A hexadecimal digit. -/
def isHex (c : UInt8) : Bool :=
  decide ((0x30 ≤ c ∧ c ≤ 0x39) ∨ (0x61 ≤ c ∧ c ≤ 0x66) ∨ (0x41 ≤ c ∧ c ≤ 0x46))

/-- The value of a hexadecimal digit. -/
def hexValue (c : UInt8) : Nat :=
  if 0x30 ≤ c ∧ c ≤ 0x39 then c.toNat - 0x30
  else if 0x61 ≤ c ∧ c ≤ 0x66 then c.toNat - 0x61 + 10
  else c.toNat - 0x41 + 10

/-- Go's `getu4`: the code unit of a `\uXXXX` escape at the head of `s`. -/
def getu4 (s : GoString) : Option Nat :=
  match s with
  | b :: u :: h1 :: h2 :: h3 :: h4 :: _ =>
    if b = 0x5C ∧ u = 0x75 ∧ isHex h1 ∧ isHex h2 ∧ isHex h3 ∧ isHex h4 then
      some (((hexValue h1 * 16 + hexValue h2) * 16 + hexValue h3) * 16 + hexValue h4)
    else none
  | _ => none

/-- Go's `utf8.EncodeRune`; a surrogate or a value above U+10FFFF is
written as U+FFFD. -/
def utf8Encode (r : Nat) : GoString :=
  if r < 0x80 then [UInt8.ofNat r]
  else if r < 0x800 then [UInt8.ofNat (0xC0 + r / 64), UInt8.ofNat (0x80 + r % 64)]
  else if (0xD800 ≤ r ∧ r < 0xE000) ∨ 0x10FFFF < r then replacementRune
  else if r < 0x10000 then
    [UInt8.ofNat (0xE0 + r / 4096), UInt8.ofNat (0x80 + r / 64 % 64), UInt8.ofNat (0x80 + r % 64)]
  else
    [UInt8.ofNat (0xF0 + r / 262144), UInt8.ofNat (0x80 + r / 4096 % 64),
      UInt8.ofNat (0x80 + r / 64 % 64), UInt8.ofNat (0x80 + r % 64)]

/-- The byte a two-byte escape stands for. -/
def unescape (c : UInt8) : UInt8 :=
  if c = 0x62 then 0x08
  else if c = 0x66 then 0x0C
  else if c = 0x6E then 0x0A
  else if c = 0x72 then 0x0D
  else if c = 0x74 then 0x09
  else c

/-- One round of the loop of Go's `unquoteBytes` on the inside of a string
literal: the bytes produced and the number of bytes consumed. A `\u` escape
of a high surrogate followed by the escape of a low surrogate gives the
combined rune; any other surrogate gives U+FFFD; an invalid byte gives
U+FFFD. -/
def unquoteStep (s : GoString) : GoString × Nat :=
  match s with
  | [] => ([], 1)
  | c :: rest =>
    if c = 0x5C then
      match rest with
      | [] => ([], 1)
      | esc :: _ =>
        if esc = 0x75 then
          match getu4 s with
          | none => ([], 6)
          | some rr =>
            if 0xD800 ≤ rr ∧ rr < 0xE000 then
              match getu4 (s.drop 6) with
              | some rr1 =>
                if rr < 0xDC00 ∧ 0xDC00 ≤ rr1 ∧ rr1 < 0xE000 then
                  (utf8Encode ((rr - 0xD800) * 1024 + (rr1 - 0xDC00) + 0x10000), 12)
                else (replacementRune, 6)
              | none => (replacementRune, 6)
            else (utf8Encode rr, 6)
        else ([unescape esc], 2)
    else if c < 0x80 then ([c], 1)
    else
      match validRuneLen s with
      | 0 => (replacementRune, 1)
      | n + 1 => (s.take (n + 1), n + 1)

/-- The loop of `unquoteBytes`; `skip` bytes belong to a round already
done. -/
def unquoteLoop (skip : Nat) (s : GoString) : GoString :=
  match skip, s with
  | _, [] => []
  | k + 1, _ :: rest => unquoteLoop k rest
  | 0, c :: rest => (unquoteStep (c :: rest)).1 ++ unquoteLoop ((unquoteStep (c :: rest)).2 - 1) rest

/-- Go's `unquoteBytes` on the bytes between the quotes of a string literal
the scanner has accepted. -/
def unquote (s : GoString) : GoString := unquoteLoop 0 s

/-- Go's `foldName` on ASCII: lower-case letters become upper-case. The
only runes outside ASCII that fold into ASCII fold to `K` and `S`, which do
not occur in `MODEL`. -/
def foldName (s : GoString) : GoString :=
  s.map (fun c => if 0x61 ≤ c ∧ c ≤ 0x7A then c - 0x20 else c)

/-- Whether a member name selects the field tagged `json:"model"`: by exact
name, or else by folded name. -/
def matchesModelField (rawKey : GoString) : Bool :=
  unquote rawKey == str "model" || foldName (unquote rawKey) == foldName (str "model")

/-- The scanner's `pushParseState`. -/
def Decoder.push (d : Decoder) (ps : ParseState) (next : Step) : Scan :=
  if d.parseState.length + 1 ≤ maxNestingDepth then
    .more { d with parseState := ps :: d.parseState, step := next }
  else .fail

/-- The scanner's `stateEndValue`: after a value, by the top of the stack. -/
def Decoder.endValue (d : Decoder) (c : UInt8) : Scan :=
  match d.parseState with
  | [] => .done { d with step := .endTop }
  | ps :: below =>
    if isSpace c then .more { d with step := .endValue }
    else
      match ps with
      | .objectKey =>
        if c = 0x3A then .more { d with parseState := .objectValue :: below, step := .beginValue }
        else .fail
      | .objectValue =>
        if c = 0x2C then .more { d with parseState := .objectKey :: below, step := .beginString }
        else if c = 0x7D then
          (if below = [] then .done { d with parseState := below, step := .endTop }
           else .more { d with parseState := below, step := .endValue })
        else .fail
      | .arrayValue =>
        if c = 0x2C then .more { d with step := .beginValue }
        else if c = 0x5D then
          (if below = [] then .done { d with parseState := below, step := .endTop }
           else .more { d with parseState := below, step := .endValue })
        else .fail

/-- What decoding records when a value starts with byte `c`: at top level,
the kind of the value; for a member of the top-level object whose name selects
`Model`, a type error unless the value is a string or `null`. -/
def Decoder.noteValue (d : Decoder) (c : UInt8) : Decoder :=
  match d.parseState with
  | [] => { d with top := if c = 0x7B then .object else if c = 0x6E then .null else .other }
  | [.objectValue] =>
    if c = 0x22 ∨ c = 0x6E then d
    else if matchesModelField d.key then { d with typeError := true }
    else d
  | _ => d

/-- The scanner's `stateBeginValue`. -/
def Decoder.beginValue (d : Decoder) (c : UInt8) : Scan :=
  if isSpace c then .more d
  else if c = 0x7B then (d.noteValue c).push .objectKey .beginStringOrEmpty
  else if c = 0x5B then (d.noteValue c).push .arrayValue .beginValueOrEmpty
  else if c = 0x22 then .more { d.noteValue c with step := .inString, cur := [] }
  else if c = 0x2D then .more { d.noteValue c with step := .neg }
  else if c = 0x30 then .more { d.noteValue c with step := .zero }
  else if c = 0x74 then .more { d.noteValue c with step := .literal (str "rue") }
  else if c = 0x66 then .more { d.noteValue c with step := .literal (str "alse") }
  else if c = 0x6E then .more { d.noteValue c with step := .literal (str "ull") }
  else if 0x31 ≤ c ∧ c ≤ 0x39 then .more { d.noteValue c with step := .one }
  else .fail

/-- The scanner's `stateBeginString`: a member name must start here. -/
def Decoder.beginString (d : Decoder) (c : UInt8) : Scan :=
  if isSpace c then .more d
  else if c = 0x22 then .more { d with step := .inString, cur := [] }
  else .fail

/-- The closing quote of a string literal: a member name of the top-level
object is kept; a member value of the top-level object is stored in `Model`
when the name selects that field. -/
def Decoder.closeString (d : Decoder) : Decoder :=
  match d.parseState with
  | [.objectKey] => { d with step := .endValue, key := d.cur }
  | [.objectValue] =>
    if matchesModelField d.key then { d with step := .endValue, model := unquote d.cur }
    else { d with step := .endValue }
  | _ => { d with step := .endValue }

/-- The scanner's `state0`: after the integer part of a number. -/
def Decoder.afterInt (d : Decoder) (c : UInt8) : Scan :=
  if c = 0x2E then .more { d with step := .dot }
  else if c = 0x65 ∨ c = 0x45 then .more { d with step := .exp }
  else d.endValue c

/-- The scanner's `stateESign`: the first digit of an exponent. -/
def Decoder.afterExpSign (d : Decoder) (c : UInt8) : Scan :=
  if isDigit c then .more { d with step := .exp0 } else .fail

/-- One byte through the scanner's current step function. -/
def Decoder.feed (d : Decoder) (c : UInt8) : Scan :=
  match d.step with
  | .beginValue => d.beginValue c
  | .beginValueOrEmpty =>
    if isSpace c then .more d
    else if c = 0x5D then d.endValue c
    else d.beginValue c
  | .beginStringOrEmpty =>
    if isSpace c then .more d
    else if c = 0x7D then
      Decoder.endValue { d with parseState := .objectValue :: d.parseState.tail } c
    else d.beginString c
  | .beginString => d.beginString c
  | .endValue => d.endValue c
  | .endTop => .done d
  | .inString =>
    if c = 0x22 then .more d.closeString
    else if c = 0x5C then .more { d with step := .inStringEsc, cur := d.cur ++ [c] }
    else if c < 0x20 then .fail
    else .more { d with cur := d.cur ++ [c] }
  | .inStringEsc =>
    if c = 0x62 ∨ c = 0x66 ∨ c = 0x6E ∨ c = 0x72 ∨ c = 0x74 ∨ c = 0x5C ∨ c = 0x2F ∨ c = 0x22 then
      .more { d with step := .inString, cur := d.cur ++ [c] }
    else if c = 0x75 then .more { d with step := .inStringEscU 0, cur := d.cur ++ [c] }
    else .fail
  | .inStringEscU seen =>
    if isHex c then
      .more { d with step := if seen < 3 then .inStringEscU (seen + 1) else .inString,
                     cur := d.cur ++ [c] }
    else .fail
  | .neg =>
    if c = 0x30 then .more { d with step := .zero }
    else if 0x31 ≤ c ∧ c ≤ 0x39 then .more { d with step := .one }
    else .fail
  | .zero => d.afterInt c
  | .one => if isDigit c then .more d else d.afterInt c
  | .dot => if isDigit c then .more { d with step := .dot0 } else .fail
  | .dot0 =>
    if isDigit c then .more d
    else if c = 0x65 ∨ c = 0x45 then .more { d with step := .exp }
    else d.endValue c
  | .exp =>
    if c = 0x2B ∨ c = 0x2D then .more { d with step := .expSign }
    else d.afterExpSign c
  | .expSign => d.afterExpSign c
  | .exp0 => if isDigit c then .more d else d.endValue c
  | .literal rest =>
    match rest with
    | [] => .fail
    | x :: more =>
      if c = x then .more { d with step := if more = [] then .endValue else .literal more }
      else .fail

/-- The decoder before the first byte: `req` is zero-valued. -/
def Decoder.init : Decoder := ⟨.beginValue, [], .unknown, [], [], [], false⟩

/-- The loop of `Decoder.readValue`: bytes are fed until the first
top-level value is complete; at the end of the input a space is fed, which
completes a top-level number or literal. `none` is a syntax error or an
input that ends too early (`io.EOF`, `io.ErrUnexpectedEOF`). -/
def readValue (d : Decoder) (input : GoString) : Option Decoder :=
  match input with
  | [] =>
    match d.feed 0x20 with
    | .done d1 => some d1
    | _ => none
  | c :: rest =>
    match d.feed c with
    | .fail => none
    | .done d1 => some d1
    | .more d1 => readValue d1 rest

/-- The call `json.NewDecoder(r.Body).Decode(&req)` on a zero-valued `req`:
the value of `req.Model` afterwards and whether an error was returned. A top
level `null` leaves `req` alone; any other top-level value that is not an
object is a type error. -/
def jsonDecodeModel (body : GoString) : GoString × Bool :=
  match readValue Decoder.init body with
  | none => ([], true)
  | some d =>
    match d.top with
    | .object => (d.model, d.typeError)
    | .null => ([], false)
    | _ => ([], true)

/-! ## The program -/

/-- The header name `X-Provider-Api-Key`. -/
def xProviderApiKey : GoString := str "X-Provider-Api-Key"

/-- The value `application/json` set as `Content-Type`. -/
def setJsonContentType (w : ResponseWriter) : ResponseWriter :=
  w.Set (str "Content-Type") (str "application/json")

/-- The body written when the key header is missing. -/
def missingKeyBody : JsonValue :=
  .object [
    (str "error", .object [
      (str "message", .string (str "Missing API key. Set X-Provider-Api-Key header.")),
      (str "type", .string (str "authentication_error")),
      (str "code", .string (str "missing_api_key"))])]

/-- The body written when the key is wrong, with the two slices of the key
already taken: `fmt.Sprintf("Invalid API key provided: %s...%s", a, b)`. -/
def invalidKeyBody (a b : GoString) : JsonValue :=
  .object [
    (str "error", .object [
      (str "message", .string (str "Invalid API key provided: " ++ a ++ str "..." ++ b)),
      (str "type", .string (str "authentication_error")),
      (str "code", .string (str "invalid_api_key"))])]

/-- The function `checkKey`: the writer afterwards and the boolean result. -/
def checkKey (cfg : Config) (w : ResponseWriter) (r : Request) :
    Except Panic (ResponseWriter × Bool) :=
  let key := r.header.Get xProviderApiKey
  if key == [] then
    let w := setJsonContentType w
    let w := w.WriteHeader 401
    let w := w.Encode missingKeyBody
    .ok (w, false)
  else if key != cfg.apiKey then
    let w := setJsonContentType w
    let w := w.WriteHeader 401
    match sliceTo key 4 with
    | .error e => .error e
    | .ok a =>
      match sliceFrom key ((key.length : Int) - 4) with
      | .error e => .error e
      | .ok b => .ok (w.Encode (invalidKeyBody a b), false)
  else
    .ok (w, true)

/-- The model name reported by `handleChatCompletions`: the decoded
`req.Model`, replaced by the configured model on a decode error and again
when empty. -/
def requestModel (cfg : Config) (env : Env) (r : Request) : GoString :=
  let decoded := env.decodeModel r.body
  let m := if decoded.2 then cfg.model else decoded.1
  if m == [] then cfg.model else m

/-- The body written by `handleChatCompletions` after a successful check. -/
def chatCompletionBody (cfg : Config) (env : Env) (r : Request) : JsonValue :=
  let reqModel := requestModel cfg env r
  let promptTokens : Int := (env.promptDraw.val : Int) + 1
  let completionTokens : Int := (env.completionDraw.val : Int) + 5
  .object [
    (str "id", .string (str "chatcmpl-" ++ fmtInt env.nowUnixNano)),
    (str "created", .number env.nowUnix),
    (str "model", .string reqModel),
    (str "object", .string (str "chat.completion")),
    (str "usage", .object [
      (str "prompt_tokens", .number promptTokens),
      (str "completion_tokens", .number completionTokens),
      (str "total_tokens", .number (promptTokens + completionTokens))]),
    (str "choices", .array [
      .object [
        (str "index", .number 0),
        (str "finish_reason", .string (str "stop")),
        (str "message", .object [
          (str "role", .string (str "assistant")),
          (str "content", .string (responses.get env.pickDraw))])]])]

/-- The function `handleChatCompletions`. -/
def handleChatCompletions (cfg : Config) (env : Env) (w : ResponseWriter) (r : Request) :
    Except Panic ResponseWriter :=
  match checkKey cfg w r with
  | .error e => .error e
  | .ok (w, false) => .ok w
  | .ok (w, true) =>
    let w := setJsonContentType w
    .ok (w.Encode (chatCompletionBody cfg env r))

/-- The body written by `handleModels` after a successful check. -/
def modelsBody (cfg : Config) (env : Env) : JsonValue :=
  .object [
    (str "object", .string (str "list")),
    (str "data", .array [
      .object [
        (str "id", .string cfg.model),
        (str "object", .string (str "model")),
        (str "created", .number env.nowUnix),
        (str "owned_by", .string (str "provider-sim")),
        (str "ready", .bool true)]])]

/-- The function `handleModels`. -/
def handleModels (cfg : Config) (env : Env) (w : ResponseWriter) (r : Request) :
    Except Panic ResponseWriter :=
  match checkKey cfg w r with
  | .error e => .error e
  | .ok (w, false) => .ok w
  | .ok (w, true) =>
    let w := setJsonContentType w
    .ok (w.Encode (modelsBody cfg env))

/-- The body written by `handleHealth`. -/
def healthBody : JsonValue :=
  .object [(str "status", .string (str "healthy"))]

/-- The function `handleHealth`. -/
def handleHealth (w : ResponseWriter) (_r : Request) : Except Panic ResponseWriter :=
  let w := setJsonContentType w
  .ok (w.Encode healthBody)

/-- The reply of `http.NotFound`: status 404 with a plain-text body. -/
def NotFound (w : ResponseWriter) (_r : Request) : Except Panic ResponseWriter :=
  let w := w.Set (str "Content-Type") (str "text/plain; charset=utf-8")
  let w := w.Set (str "X-Content-Type-Options") (str "nosniff")
  let w := w.WriteHeader 404
  .ok (w.Write (.text (str "404 page not found\n")))

/-- The catch-all handler of `main`: the `switch` over path suffixes. -/
def handler (cfg : Config) (env : Env) (w : ResponseWriter) (r : Request) :
    Except Panic ResponseWriter :=
  let path := r.path
  if HasSuffix path (str "/v1/chat/completions") || HasSuffix path (str "/v1/completions") then
    handleChatCompletions cfg env w r
  else if HasSuffix path (str "/v1/models") then
    handleModels cfg env w r
  else if HasSuffix path (str "/health") || HasSuffix path (str "/ready") then
    handleHealth w r
  else
    NotFound w r

/-- One request served on a fresh response writer. -/
def serve (cfg : Config) (env : Env) (r : Request) : Except Panic ResponseWriter :=
  handler cfg env ResponseWriter.fresh r

/-! ## Naming the branch taken by the dispatcher -/

/-- The four branches of the `switch` in `main`. -/
inductive Route where
  | chatCompletions
  | models
  | health
  | notFound
  deriving DecidableEq, Repr

/-- The function called on each branch. -/
def Route.run (t : Route) (cfg : Config) (env : Env) (w : ResponseWriter) (r : Request) :
    Except Panic ResponseWriter :=
  match t with
  | .chatCompletions => handleChatCompletions cfg env w r
  | .models => handleModels cfg env w r
  | .health => handleHealth w r
  | .notFound => NotFound w r

/-- The branch the `switch` of `main` takes for a path. -/
def route (path : GoString) : Route :=
  if HasSuffix path (str "/v1/chat/completions") || HasSuffix path (str "/v1/completions") then
    .chatCompletions
  else if HasSuffix path (str "/v1/models") then
    .models
  else if HasSuffix path (str "/health") || HasSuffix path (str "/ready") then
    .health
  else
    .notFound

/-- The condition of the first `case`: the completions group. -/
def isCompletionsPath (path : GoString) : Bool :=
  HasSuffix path (str "/v1/chat/completions") || HasSuffix path (str "/v1/completions")

/-- The condition of the second `case`: the model-list group. -/
def isModelsPath (path : GoString) : Bool :=
  HasSuffix path (str "/v1/models")

/-- The condition of the third `case`: the health group. -/
def isHealthPath (path : GoString) : Bool :=
  HasSuffix path (str "/health") || HasSuffix path (str "/ready")

/-- The `case` clauses of the `switch`, in source order. -/
def switchCases : List ((GoString → Bool) × Route) :=
  [(isCompletionsPath, .chatCompletions), (isModelsPath, .models), (isHealthPath, .health)]

/-- A `switch` over a list of clauses: the first clause whose condition
holds decides, and `default` is `http.NotFound`. -/
def firstMatch (cases : List ((GoString → Bool) × Route)) (path : GoString) : Route :=
  match cases with
  | [] => .notFound
  | (cond, t) :: rest => if cond path then t else firstMatch rest path

/-- The paths of the protected endpoints: the first two `case` clauses. -/
def isProtectedPath (path : GoString) : Bool :=
  isCompletionsPath path || isModelsPath path

/-- The header map every JSON reply of the program ends with. -/
def jsonHeader : List (GoString × GoString) :=
  [(str "Content-Type", str "application/json")]

/-- A request carrying header `X-Provider-Api-Key: key`. -/
def requestWithKey (path key body : GoString) : Request :=
  ⟨path, ⟨[(xProviderApiKey, [key])]⟩, body⟩

/-- A request without any header. -/
def requestWithoutKey (path body : GoString) : Request :=
  ⟨path, ⟨[]⟩, body⟩

/-- An environment whose decoder always reports an error. -/
def envDecodeError : Env :=
  ⟨fun _ => ([], true), 0, 0, ⟨0, by decide⟩, 0, 0⟩

/-- An environment in which the body decodes to model `foo`, the draws
are 2, 7 and 1, and the clock reads 1700000000 seconds. -/
def envDecodeFoo : Env :=
  ⟨fun _ => (str "foo", false), 2, 7, ⟨1, by decide⟩, 1700000000000000000, 1700000000⟩

/-- An environment whose decoder is the `encoding/json` decoder modelled
above; the draws are 2, 7 and 1. -/
def envJson : Env :=
  ⟨jsonDecodeModel, 2, 7, ⟨1, by decide⟩, 1700000000000000000, 1700000000⟩

/-- A body whose only member is `model`, with value the string `m` written
without escapes. -/
def modelBody (m : GoString) : GoString :=
  str "\x7b\"model\":\"" ++ m ++ str "\"\x7d"

/-- A string of ASCII bytes from `0x20` on, without quote or backslash: its
JSON string literal is the string itself between quotes. -/
def isPlain (m : GoString) : Bool :=
  m.all (fun b => decide (0x20 ≤ b ∧ b < 0x80 ∧ b ≠ 0x22 ∧ b ≠ 0x5C))

/-- A string of ASCII bytes only. -/
def isASCII (m : GoString) : Bool := m.all (fun b => decide (b < 0x80))

/-- A configuration whose model is the single byte `0xFF`, which is not
valid UTF-8. -/
def cfgInvalidModel : Config := ⟨8000, str "sk-test", [0xFF]⟩

/-- A configuration with key `sk-test` and the default port and model. -/
def cfgTest : Config := ⟨8000, str "sk-test", str "gpt-4-external"⟩


/-! ## Suffix tests -/

theorem HasSuffix_iff (s t : GoString) : HasSuffix s t = true ↔ t <:+ s := by
  unfold HasSuffix
  constructor
  · intro h
    simp only [Bool.and_eq_true, decide_eq_true_eq, beq_iff_eq] at h
    rw [← h.2]
    exact List.drop_suffix _ _
  · intro h
    simp only [Bool.and_eq_true, decide_eq_true_eq, beq_iff_eq]
    exact ⟨h.length_le, (List.suffix_iff_eq_drop.mp h).symm⟩

theorem HasSuffix_append (p s : GoString) : HasSuffix (p ++ s) s = true :=
  (HasSuffix_iff _ _).mpr (List.suffix_append p s)

/-- Two patterns neither of which ends with the other never match one path. -/
theorem HasSuffix_exclusive {a b : GoString} (hab : ¬ a <:+ b) (hba : ¬ b <:+ a)
    (path : GoString) (ha : HasSuffix path a = true) : HasSuffix path b = false := by
  cases hb : HasSuffix path b with
  | false => rfl
  | true =>
    have h1 := (HasSuffix_iff _ _).mp ha
    have h2 := (HasSuffix_iff _ _).mp hb
    rcases List.suffix_or_suffix_of_suffix h1 h2 with h | h
    · exact absurd h hab
    · exact absurd h hba

theorem models_not_completions (path : GoString) (h : isModelsPath path = true) :
    isCompletionsPath path = false := by
  unfold isModelsPath at h
  unfold isCompletionsPath
  rw [HasSuffix_exclusive (by decide) (by decide) path h,
    HasSuffix_exclusive (by decide) (by decide) path h]
  rfl

theorem health_not_completions (path : GoString) (h : isHealthPath path = true) :
    isCompletionsPath path = false := by
  unfold isHealthPath at h
  unfold isCompletionsPath
  rcases Bool.or_eq_true _ _ ▸ h with h | h
  · rw [HasSuffix_exclusive (by decide) (by decide) path h,
      HasSuffix_exclusive (by decide) (by decide) path h]
    rfl
  · rw [HasSuffix_exclusive (by decide) (by decide) path h,
      HasSuffix_exclusive (by decide) (by decide) path h]
    rfl

theorem health_not_models (path : GoString) (h : isHealthPath path = true) :
    isModelsPath path = false := by
  unfold isHealthPath at h
  unfold isModelsPath
  rcases Bool.or_eq_true _ _ ▸ h with h | h
  · exact HasSuffix_exclusive (by decide) (by decide) path h
  · exact HasSuffix_exclusive (by decide) (by decide) path h

theorem route_eq_cases (path : GoString) :
    route path = if isCompletionsPath path then Route.chatCompletions
      else if isModelsPath path then Route.models
      else if isHealthPath path then Route.health else Route.notFound := rfl

theorem handler_eq_run (cfg : Config) (env : Env) (w : ResponseWriter) (r : Request) :
    handler cfg env w r = (route r.path).run cfg env w r := by
  unfold handler route
  simp only []
  split
  · rfl
  · split
    · rfl
    · split <;> rfl

theorem route_of_completions (path : GoString) (h : isCompletionsPath path = true) :
    route path = .chatCompletions := by
  rw [route_eq_cases, h]; rfl

theorem route_of_models (path : GoString) (h : isModelsPath path = true) :
    route path = .models := by
  rw [route_eq_cases, models_not_completions path h, h]; rfl

theorem route_of_health (path : GoString) (h : isHealthPath path = true) :
    route path = .health := by
  rw [route_eq_cases, health_not_completions path h, health_not_models path h, h]; rfl


/-! ## Routing (C7, C9, C10) -/

theorem route_of_none (path : GoString) (h1 : isCompletionsPath path = false)
    (h2 : isModelsPath path = false) (h3 : isHealthPath path = false) :
    route path = .notFound := by
  rw [route_eq_cases, h1, h2, h3]; rfl

theorem isCompletionsPath_chat (p : GoString) :
    isCompletionsPath (p ++ str "/v1/chat/completions") = true := by
  unfold isCompletionsPath
  rw [HasSuffix_append]; rfl

theorem isCompletionsPath_plain (p : GoString) :
    isCompletionsPath (p ++ str "/v1/completions") = true := by
  unfold isCompletionsPath
  rw [HasSuffix_append, Bool.or_true]

theorem isModelsPath_append (p : GoString) : isModelsPath (p ++ str "/v1/models") = true :=
  HasSuffix_append _ _

theorem isHealthPath_health (p : GoString) : isHealthPath (p ++ str "/health") = true := by
  unfold isHealthPath
  rw [HasSuffix_append]; rfl

theorem isHealthPath_ready (p : GoString) : isHealthPath (p ++ str "/ready") = true := by
  unfold isHealthPath
  rw [HasSuffix_append, Bool.or_true]

theorem serve_notFound (cfg : Config) (env : Env) (r : Request)
    (h : route r.path = .notFound) :
    serve cfg env r = .ok ⟨[(str "X-Content-Type-Options", str "nosniff"),
      (str "Content-Type", str "text/plain; charset=utf-8")], some 404,
      [.text (str "404 page not found\n")]⟩ := by
  unfold serve
  rw [handler_eq_run, h]
  rfl

/-- C7: routing is by path suffix. For every prefix `p`, the path `p ++ s`
takes the same branch as the bare pattern `s`: the completions handler for
`/v1/chat/completions` and `/v1/completions`, the model-list handler for
`/v1/models`, the health handler for `/health` and `/ready`. Every path that
ends with none of the five patterns takes the default branch and is answered
with status 404; `/v1/modelsX` is such a path. -/
theorem routing_by_suffix (p : GoString) :
    (route (p ++ str "/v1/chat/completions") = route (str "/v1/chat/completions")
      ∧ route (str "/v1/chat/completions") = .chatCompletions)
    ∧ (route (p ++ str "/v1/completions") = route (str "/v1/completions")
      ∧ route (str "/v1/completions") = .chatCompletions)
    ∧ (route (p ++ str "/v1/models") = route (str "/v1/models")
      ∧ route (str "/v1/models") = .models)
    ∧ (route (p ++ str "/health") = route (str "/health")
      ∧ route (str "/health") = .health)
    ∧ (route (p ++ str "/ready") = route (str "/ready")
      ∧ route (str "/ready") = .health)
    ∧ (∀ (cfg : Config) (env : Env) (w : ResponseWriter) (r : Request),
        handler cfg env w r = (route r.path).run cfg env w r)
    ∧ (∀ (cfg : Config) (env : Env) (r : Request),
        HasSuffix r.path (str "/v1/chat/completions") = false →
        HasSuffix r.path (str "/v1/completions") = false →
        HasSuffix r.path (str "/v1/models") = false →
        HasSuffix r.path (str "/health") = false →
        HasSuffix r.path (str "/ready") = false →
        route r.path = .notFound
          ∧ ∃ w, serve cfg env r = .ok w ∧ w.status = some 404 ∧ w.jsonBody = none)
    ∧ route (str "/v1/modelsX") = .notFound := by
  have e1 : route (str "/v1/chat/completions") = .chatCompletions := by decide
  have e2 : route (str "/v1/completions") = .chatCompletions := by decide
  have e3 : route (str "/v1/models") = .models := by decide
  have e4 : route (str "/health") = .health := by decide
  have e5 : route (str "/ready") = .health := by decide
  refine ⟨⟨?_, e1⟩, ⟨?_, e2⟩, ⟨?_, e3⟩, ⟨?_, e4⟩, ⟨?_, e5⟩, handler_eq_run, ?_, by decide⟩
  · rw [e1]; exact route_of_completions _ (isCompletionsPath_chat p)
  · rw [e2]; exact route_of_completions _ (isCompletionsPath_plain p)
  · rw [e3]; exact route_of_models _ (isModelsPath_append p)
  · rw [e4]; exact route_of_health _ (isHealthPath_health p)
  · rw [e5]; exact route_of_health _ (isHealthPath_ready p)
  · intro cfg env r h1 h2 h3 h4 h5
    have hr : route r.path = .notFound := by
      apply route_of_none
      · unfold isCompletionsPath; rw [h1, h2]; rfl
      · exact h3
      · unfold isHealthPath; rw [h4, h5]; rfl
    exact ⟨hr, _, serve_notFound cfg env r hr, rfl, rfl⟩

/-- Witness for C7 at the prefix `/anything/prefix` and at the request
for `/v1/modelsX`. -/
theorem routing_by_suffix_witness :
    route (str "/anything/prefix" ++ str "/v1/models") = route (str "/v1/models")
    ∧ ∃ w, serve cfgTest envDecodeError (requestWithKey (str "/v1/modelsX") (str "sk-test") [])
        = .ok w ∧ w.status = some 404 :=
  have h := routing_by_suffix (str "/anything/prefix")
  ⟨h.2.2.1.1,
    match (h.2.2.2.2.2.2.1 cfgTest envDecodeError
      (requestWithKey (str "/v1/modelsX") (str "sk-test") [])
      (by decide) (by decide) (by decide) (by decide) (by decide)).2 with
    | ⟨w, hw, hs, _⟩ => ⟨w, hw, hs⟩⟩


theorem serve_health (cfg : Config) (env : Env) (r : Request)
    (h : isHealthPath r.path = true) :
    serve cfg env r = .ok ⟨jsonHeader, some 200, [.json healthBody]⟩ := by
  unfold serve
  rw [handler_eq_run, route_of_health r.path h]
  rfl

/-- C9: every request whose path ends with `/health` or `/ready` is
answered with status 200 and the body `status: healthy`, whatever the
configuration, the headers (key header absent, wrong or right) and the body;
the reply does not depend on the key, and any two such requests get the same
reply. -/
theorem health_always_healthy (cfg cfg2 : Config) (env env2 : Env) (r r2 : Request)
    (h : HasSuffix r.path (str "/health") = true ∨ HasSuffix r.path (str "/ready") = true)
    (h2 : HasSuffix r2.path (str "/health") = true ∨ HasSuffix r2.path (str "/ready") = true) :
    serve cfg env r = .ok ⟨[(str "Content-Type", str "application/json")], some 200,
        [.json (.object [(str "status", .string (str "healthy"))])]⟩
    ∧ route r.path = .health
    ∧ serve cfg env r = serve cfg2 env2 r2 := by
  have hp : isHealthPath r.path = true := by
    unfold isHealthPath
    rcases h with h | h <;> simp [h]
  have hp2 : isHealthPath r2.path = true := by
    unfold isHealthPath
    rcases h2 with h2 | h2 <;> simp [h2]
  refine ⟨serve_health cfg env r hp, route_of_health _ hp, ?_⟩
  rw [serve_health cfg env r hp, serve_health cfg2 env2 r2 hp2]

/-- Witness for C9: `/health` without a key and `/x/ready` with a wrong
key, under two different configurations. -/
theorem health_always_healthy_witness :
    serve cfgTest envDecodeError (requestWithoutKey (str "/health") [])
        = .ok ⟨[(str "Content-Type", str "application/json")], some 200,
          [.json (.object [(str "status", .string (str "healthy"))])]⟩
    ∧ route (str "/health") = .health
    ∧ serve cfgTest envDecodeError (requestWithoutKey (str "/health") [])
        = serve ⟨9000, str "other", str "m"⟩ envDecodeError
            (requestWithKey (str "/x/ready") (str "abc") (str "body")) :=
  health_always_healthy cfgTest ⟨9000, str "other", str "m"⟩ envDecodeError envDecodeError
    (requestWithoutKey (str "/health") [])
    (requestWithKey (str "/x/ready") (str "abc") (str "body"))
    (Or.inl (by decide)) (Or.inr (by decide))

/-- A clause list in which any two matching clauses name the same branch
selects that branch in every order. -/
theorem firstMatch_perm (path : GoString) {l1 l2 : List ((GoString → Bool) × Route)}
    (hp : l1.Perm l2)
    (hu : ∀ c1 ∈ l1, ∀ c2 ∈ l1, c1.1 path = true → c2.1 path = true → c1.2 = c2.2) :
    firstMatch l1 path = firstMatch l2 path := by
  induction hp with
  | nil => rfl
  | cons x _ ih =>
    obtain ⟨c, t⟩ := x
    simp only [firstMatch]
    split
    · rfl
    · exact ih (fun c1 h1 c2 h2 => hu c1 (List.mem_cons_of_mem _ h1) c2 (List.mem_cons_of_mem _ h2))
  | swap x y l =>
    obtain ⟨c, t⟩ := x
    obtain ⟨d, u⟩ := y
    simp only [firstMatch]
    by_cases hc : c path = true <;> by_cases hd : d path = true
    · have := hu (d, u) (by simp) (c, t) (by simp) hd hc
      simp only at this
      simp [hc, hd, this]
    · simp [hc, hd]
    · simp [hc, hd]
    · simp [hc, hd]
  | trans h12 _ ih1 ih2 =>
    rw [ih1 hu]
    exact ih2 (fun c1 h1 c2 h2 => hu c1 (h12.mem_iff.mpr h1) c2 (h12.mem_iff.mpr h2))

theorem route_eq_firstMatch (path : GoString) : route path = firstMatch switchCases path := by
  rw [route_eq_cases]
  rfl

theorem switchCases_unambiguous (path : GoString) :
    ∀ c1 ∈ switchCases, ∀ c2 ∈ switchCases,
      c1.1 path = true → c2.1 path = true → c1.2 = c2.2 := by
  intro c1 h1 c2 h2 e1 e2
  simp only [switchCases, List.mem_cons, List.mem_singleton, List.not_mem_nil, or_false] at h1 h2
  rcases h1 with rfl | rfl | rfl <;> rcases h2 with rfl | rfl | rfl
  · rfl
  · exact absurd e1 (by simp [models_not_completions path e2])
  · exact absurd e1 (by simp [health_not_completions path e2])
  · exact absurd e2 (by simp [models_not_completions path e1])
  · rfl
  · exact absurd e1 (by simp [health_not_models path e2])
  · exact absurd e2 (by simp [health_not_completions path e1])
  · exact absurd e2 (by simp [health_not_models path e1])
  · rfl

/-- C10: the three route groups are pairwise disjoint: no path ends with a
completions pattern and `/v1/models`, none with a completions pattern and a
health pattern, none with `/v1/models` and a health pattern. Hence the branch
taken by the ordered `switch` is the branch taken when its `case` clauses are
tried in any other order. -/
theorem route_groups_disjoint (path : GoString) :
    ¬ ((HasSuffix path (str "/v1/chat/completions") = true
          ∨ HasSuffix path (str "/v1/completions") = true)
        ∧ HasSuffix path (str "/v1/models") = true)
    ∧ ¬ ((HasSuffix path (str "/v1/chat/completions") = true
          ∨ HasSuffix path (str "/v1/completions") = true)
        ∧ (HasSuffix path (str "/health") = true ∨ HasSuffix path (str "/ready") = true))
    ∧ ¬ (HasSuffix path (str "/v1/models") = true
        ∧ (HasSuffix path (str "/health") = true ∨ HasSuffix path (str "/ready") = true))
    ∧ route path = firstMatch switchCases path
    ∧ ∀ cases : List ((GoString → Bool) × Route), cases.Perm switchCases →
        firstMatch cases path = route path := by
  have hc : (HasSuffix path (str "/v1/chat/completions") = true
      ∨ HasSuffix path (str "/v1/completions") = true) → isCompletionsPath path = true := by
    intro h
    unfold isCompletionsPath
    rcases h with h | h <;> simp [h]
  have hh : (HasSuffix path (str "/health") = true ∨ HasSuffix path (str "/ready") = true) →
      isHealthPath path = true := by
    intro h
    unfold isHealthPath
    rcases h with h | h <;> simp [h]
  refine ⟨?_, ?_, ?_, route_eq_firstMatch path, ?_⟩
  · rintro ⟨h1, h2⟩
    have := models_not_completions path h2
    rw [hc h1] at this
    exact Bool.noConfusion this
  · rintro ⟨h1, h2⟩
    have := health_not_completions path (hh h2)
    rw [hc h1] at this
    exact Bool.noConfusion this
  · rintro ⟨h1, h2⟩
    have := health_not_models path (hh h2)
    unfold isModelsPath at this
    rw [h1] at this
    exact Bool.noConfusion this
  · intro cases hp
    rw [route_eq_firstMatch]
    exact (firstMatch_perm path hp.symm (switchCases_unambiguous path)).symm

/-- Witness for C10: the clauses in reverse order, on `/x/v1/models`. -/
theorem route_groups_disjoint_witness :
    firstMatch [(isHealthPath, .health), (isModelsPath, .models),
        (isCompletionsPath, .chatCompletions)] (str "/x/v1/models")
      = route (str "/x/v1/models") :=
  (route_groups_disjoint (str "/x/v1/models")).2.2.2.2 _
    (List.reverse_perm switchCases)


/-! ## UTF-8 coercion -/

theorem replaceInvalid_of_ascii (s : GoString) (h : isASCII s = true) :
    replaceInvalid 0 s = s := by
  induction s with
  | nil => rfl
  | cons b rest ih =>
    have hb : b < 0x80 := by
      have := h
      simp only [isASCII, List.all_cons, Bool.and_eq_true, decide_eq_true_eq] at this
      exact this.1
    have hr : isASCII rest = true := by
      have := h
      simp only [isASCII, List.all_cons, Bool.and_eq_true] at this
      exact this.2
    have hv : validRuneLen (b :: rest) = 1 := by
      simp only [validRuneLen, hb, if_true]
    simp only [replaceInvalid, hv, ih hr]

/-- An ASCII string is written unchanged. -/
theorem coerceToValidUTF8_of_ascii (s : GoString) (h : isASCII s = true) :
    coerceToValidUTF8 s = s :=
  replaceInvalid_of_ascii s h

theorem isASCII_append (a b : GoString) :
    isASCII (a ++ b) = (isASCII a && isASCII b) := by
  simp only [isASCII, List.all_append]

/-! ## The key check (C1, C2, C3, C4) -/

theorem Get_of_lookup_none (h : Header) (key : GoString)
    (hk : h.entries.lookup key = none) : h.Get key = [] := by
  unfold Header.Get
  rw [hk]

theorem checkKey_missing (cfg : Config) (w : ResponseWriter) (r : Request)
    (hk : r.header.Get xProviderApiKey = []) :
    checkKey cfg w r
      = .ok (((setJsonContentType w).WriteHeader 401).Encode missingKeyBody, false) := by
  unfold checkKey
  simp only [hk]
  rfl

theorem checkKey_valid (cfg : Config) (w : ResponseWriter) (r : Request)
    (hne : cfg.apiKey ≠ []) (hk : r.header.Get xProviderApiKey = cfg.apiKey) :
    checkKey cfg w r = .ok (w, true) := by
  unfold checkKey
  simp only [hk]
  rw [if_neg (by simpa using hne), if_neg (by simp)]

theorem sliceTo_four (key : GoString) (h : 4 ≤ key.length) :
    sliceTo key 4 = .ok (key.take 4) := by
  unfold sliceTo
  rw [if_pos ⟨by decide, by exact_mod_cast h⟩]
  rfl

theorem sliceFrom_last_four (key : GoString) (h : 4 ≤ key.length) :
    sliceFrom key ((key.length : Int) - 4) = .ok (key.drop (key.length - 4)) := by
  unfold sliceFrom
  rw [if_pos ⟨by omega, by omega⟩]
  congr 2
  omega

theorem sliceTo_short (key : GoString) (h : key.length < 4) :
    sliceTo key 4 = .error (.sliceBoundsOutOfRange 4 key.length) := by
  unfold sliceTo
  rw [if_neg (by omega)]

theorem checkKey_invalid (cfg : Config) (w : ResponseWriter) (r : Request)
    (hlen : 4 ≤ (r.header.Get xProviderApiKey).length)
    (hk : r.header.Get xProviderApiKey ≠ cfg.apiKey) :
    checkKey cfg w r
      = .ok (((setJsonContentType w).WriteHeader 401).Encode
          (invalidKeyBody ((r.header.Get xProviderApiKey).take 4)
            ((r.header.Get xProviderApiKey).drop
              ((r.header.Get xProviderApiKey).length - 4))), false) := by
  have hne : r.header.Get xProviderApiKey ≠ [] := by
    intro h
    rw [h] at hlen
    exact absurd hlen (by decide)
  unfold checkKey
  simp only []
  rw [if_neg (by simpa using hne), if_pos (by simpa using hk),
    sliceTo_four _ hlen, sliceFrom_last_four _ hlen]

theorem checkKey_short (cfg : Config) (w : ResponseWriter) (r : Request)
    (hne : r.header.Get xProviderApiKey ≠ [])
    (hlen : (r.header.Get xProviderApiKey).length < 4)
    (hk : r.header.Get xProviderApiKey ≠ cfg.apiKey) :
    checkKey cfg w r
      = .error (.sliceBoundsOutOfRange 4 (r.header.Get xProviderApiKey).length) := by
  unfold checkKey
  simp only []
  rw [if_neg (by simpa using hne), if_pos (by simpa using hk), sliceTo_short _ hlen]

/-- The check panics exactly on a non-empty wrong key of fewer than 4 bytes. -/
theorem checkKey_panics_iff (cfg : Config) (w : ResponseWriter) (r : Request) :
    (∃ e, checkKey cfg w r = .error e)
      ↔ (r.header.Get xProviderApiKey ≠ [] ∧ r.header.Get xProviderApiKey ≠ cfg.apiKey
          ∧ (r.header.Get xProviderApiKey).length < 4) := by
  constructor
  · rintro ⟨e, he⟩
    by_cases h0 : r.header.Get xProviderApiKey = []
    · rw [checkKey_missing cfg w r h0] at he
      exact Except.noConfusion he
    · by_cases h1 : r.header.Get xProviderApiKey = cfg.apiKey
      · rw [checkKey_valid cfg w r (h1 ▸ h0) h1] at he
        exact Except.noConfusion he
      · by_cases h2 : 4 ≤ (r.header.Get xProviderApiKey).length
        · rw [checkKey_invalid cfg w r h2 h1] at he
          exact Except.noConfusion he
        · exact ⟨h0, h1, by omega⟩
  · rintro ⟨h0, h1, h2⟩
    exact ⟨_, checkKey_short cfg w r h0 h2 h1⟩

theorem isProtectedPath_cases (path : GoString) (h : isProtectedPath path = true) :
    route path = .chatCompletions ∨ route path = .models := by
  unfold isProtectedPath at h
  rcases Bool.or_eq_true _ _ ▸ h with h | h
  · exact Or.inl (route_of_completions path h)
  · exact Or.inr (route_of_models path h)

theorem isProtectedPath_of_suffix (path : GoString)
    (h : HasSuffix path (str "/v1/chat/completions") = true
      ∨ HasSuffix path (str "/v1/completions") = true
      ∨ HasSuffix path (str "/v1/models") = true) : isProtectedPath path = true := by
  unfold isProtectedPath isCompletionsPath isModelsPath
  rcases h with h | h | h <;> simp [h]

/-- On a protected path a failed check is the whole reply. -/
theorem serve_protected_rejected (cfg : Config) (env : Env) (r : Request) (w : ResponseWriter)
    (hp : isProtectedPath r.path = true)
    (hc : checkKey cfg ResponseWriter.fresh r = .ok (w, false)) :
    serve cfg env r = .ok w := by
  unfold serve
  rw [handler_eq_run]
  rcases isProtectedPath_cases r.path hp with h | h
  · rw [h]
    show handleChatCompletions cfg env ResponseWriter.fresh r = .ok w
    unfold handleChatCompletions
    rw [hc]
  · rw [h]
    show handleModels cfg env ResponseWriter.fresh r = .ok w
    unfold handleModels
    rw [hc]

/-- On a protected path a panic of the check is a panic of the handler. -/
theorem serve_protected_panic (cfg : Config) (env : Env) (r : Request) (e : Panic)
    (hp : isProtectedPath r.path = true)
    (hc : checkKey cfg ResponseWriter.fresh r = .error e) :
    serve cfg env r = .error e := by
  unfold serve
  rw [handler_eq_run]
  rcases isProtectedPath_cases r.path hp with h | h
  · rw [h]
    show handleChatCompletions cfg env ResponseWriter.fresh r = .error e
    unfold handleChatCompletions
    rw [hc]
  · rw [h]
    show handleModels cfg env ResponseWriter.fresh r = .error e
    unfold handleModels
    rw [hc]

/-- The reply to a missing key, as written. -/
theorem missingKey_reply :
    ((setJsonContentType ResponseWriter.fresh).WriteHeader 401).Encode missingKeyBody
      = ⟨[(str "Content-Type", str "application/json")], some 401,
        [.json (.object [
          (str "error", .object [
            (str "message", .string (str "Missing API key. Set X-Provider-Api-Key header.")),
            (str "type", .string (str "authentication_error")),
            (str "code", .string (str "missing_api_key"))])])]⟩ := by
  rfl

/-- The reply to a wrong key whose two slices are `a` and `b`, as written. -/
theorem invalidKey_reply (a b : GoString) :
    ((setJsonContentType ResponseWriter.fresh).WriteHeader 401).Encode (invalidKeyBody a b)
      = ⟨[(str "Content-Type", str "application/json")], some 401,
        [.json (.object [
          (str "error", .object [
            (str "message", .string
              (coerceToValidUTF8 (str "Invalid API key provided: " ++ a ++ str "..." ++ b))),
            (str "type", .string (str "authentication_error")),
            (str "code", .string (str "invalid_api_key"))])])]⟩ := by
  rfl

/-- C1: a request to a protected endpoint (path ending in
`/v1/chat/completions`, `/v1/completions` or `/v1/models`) that has no
`X-Provider-Api-Key` header is answered with status 401 and exactly the error
envelope with type `authentication_error` and code `missing_api_key`; nothing
else is written, so the body has no completion or model-list member. -/
theorem missing_key_unauthorized (cfg : Config) (env : Env) (r : Request)
    (hpath : HasSuffix r.path (str "/v1/chat/completions") = true
      ∨ HasSuffix r.path (str "/v1/completions") = true
      ∨ HasSuffix r.path (str "/v1/models") = true)
    (hkey : r.header.entries.lookup xProviderApiKey = none) :
    serve cfg env r = .ok ⟨[(str "Content-Type", str "application/json")], some 401,
        [.json (.object [
          (str "error", .object [
            (str "message", .string (str "Missing API key. Set X-Provider-Api-Key header.")),
            (str "type", .string (str "authentication_error")),
            (str "code", .string (str "missing_api_key"))])])]⟩
    ∧ ∃ w body, serve cfg env r = .ok w ∧ w.status = some 401 ∧ w.jsonBody = some body
        ∧ body.getPath [str "error", str "type"] = some (.string (str "authentication_error"))
        ∧ body.getPath [str "error", str "code"] = some (.string (str "missing_api_key"))
        ∧ body.get? (str "choices") = none ∧ body.get? (str "usage") = none
        ∧ body.get? (str "model") = none ∧ body.get? (str "object") = none
        ∧ body.get? (str "data") = none := by
  have hs := serve_protected_rejected cfg env r _ (isProtectedPath_of_suffix _ hpath)
    (checkKey_missing cfg ResponseWriter.fresh r (Get_of_lookup_none _ _ hkey))
  rw [missingKey_reply] at hs
  exact ⟨hs, _, _, hs, rfl, rfl, rfl, rfl, rfl, rfl, rfl, rfl, rfl⟩

/-- Witness for C1: `POST /v1/chat/completions` without the header. -/
theorem missing_key_unauthorized_witness :
    ∃ w, serve cfgTest envDecodeError (requestWithoutKey (str "/v1/chat/completions") [])
        = .ok w ∧ w.status = some 401
      ∧ w.jsonBody.bind (fun b => b.getPath [str "error", str "code"])
        = some (.string (str "missing_api_key")) :=
  ⟨_, (missing_key_unauthorized cfgTest envDecodeError
      (requestWithoutKey (str "/v1/chat/completions") []) (Or.inl (by decide)) rfl).1,
    rfl, rfl⟩

/-- C2, as stated, fails, at three requests to `/v1/models` under the
configured key `sk-test`. (1) A header present with the empty value differs
from the configured key and is answered with the `missing_api_key` envelope,
not an `invalid_api_key` one. (2) The 3-byte key `abc` makes the check panic
on `key[:4]`: no response is produced. (3) The key `abcéxyz` (8 bytes, the
character `é` being the two bytes `C3 A9`) is cut through `é`: the message
is `Invalid API key provided: abc` U+FFFD `...` U+FFFD `xyz`, not the first
four characters `abcé`, the marker and the last four characters `éxyz`. -/
theorem invalid_key_claim_fails :
    ((requestWithKey (str "/v1/models") [] []).header.Get xProviderApiKey ≠ cfgTest.apiKey
      ∧ serve cfgTest envDecodeError (requestWithKey (str "/v1/models") [] [])
          = .ok ⟨[(str "Content-Type", str "application/json")], some 401,
              [.json (.object [
                (str "error", .object [
                  (str "message",
                    .string (str "Missing API key. Set X-Provider-Api-Key header.")),
                  (str "type", .string (str "authentication_error")),
                  (str "code", .string (str "missing_api_key"))])])]⟩
      ∧ str "missing_api_key" ≠ str "invalid_api_key")
    ∧ ((requestWithKey (str "/v1/models") (str "abc") []).header.Get xProviderApiKey
          ≠ cfgTest.apiKey
      ∧ serve cfgTest envDecodeError (requestWithKey (str "/v1/models") (str "abc") [])
          = .error (.sliceBoundsOutOfRange 4 3)
      ∧ ¬ ∃ w, serve cfgTest envDecodeError (requestWithKey (str "/v1/models") (str "abc") [])
            = .ok w)
    ∧ ((requestWithKey (str "/v1/models") (str "abcéxyz") []).header.Get xProviderApiKey
          ≠ cfgTest.apiKey
      ∧ str "abcéxyz" = [0x61, 0x62, 0x63, 0xC3, 0xA9, 0x78, 0x79, 0x7A]
      ∧ serve cfgTest envDecodeError (requestWithKey (str "/v1/models") (str "abcéxyz") [])
          = .ok ⟨[(str "Content-Type", str "application/json")], some 401,
              [.json (.object [
                (str "error", .object [
                  (str "message", .string (str "Invalid API key provided: abc"
                    ++ [0xEF, 0xBF, 0xBD] ++ str "..." ++ [0xEF, 0xBF, 0xBD] ++ str "xyz")),
                  (str "type", .string (str "authentication_error")),
                  (str "code", .string (str "invalid_api_key"))])])]⟩
      ∧ str "Invalid API key provided: abc" ++ [0xEF, 0xBF, 0xBD] ++ str "..."
            ++ [0xEF, 0xBF, 0xBD] ++ str "xyz"
          ≠ str "Invalid API key provided: abcé...éxyz") := by
  refine ⟨⟨by decide, rfl, by decide⟩, ⟨by decide, rfl, ?_⟩, ⟨by decide, by decide, rfl, by decide⟩⟩
  rintro ⟨w, hw⟩
  have e : serve cfgTest envDecodeError (requestWithKey (str "/v1/models") (str "abc") [])
      = .error (.sliceBoundsOutOfRange 4 3) := rfl
  rw [e] at hw
  exact Except.noConfusion hw

/-- C2, amended: a request to a protected endpoint whose
`X-Provider-Api-Key` value has at least 4 bytes and differs from the
configured key is answered with status 401 and the error envelope with type
`authentication_error` and code `invalid_api_key`. Its message is the string
`Invalid API key provided: ` followed by the first 4 bytes of the presented
key, `...`, and its last 4 bytes, as `encoding/json` writes that string: every
byte that is not part of a valid UTF-8 sequence replaced by U+FFFD. When the
first 4 and the last 4 bytes of the key are ASCII, they are its first 4 and
last 4 characters and the message is that string unchanged. -/
theorem invalid_key_unauthorized (cfg : Config) (env : Env) (r : Request)
    (hpath : HasSuffix r.path (str "/v1/chat/completions") = true
      ∨ HasSuffix r.path (str "/v1/completions") = true
      ∨ HasSuffix r.path (str "/v1/models") = true)
    (hlen : 4 ≤ (r.header.Get xProviderApiKey).length)
    (hkey : r.header.Get xProviderApiKey ≠ cfg.apiKey) :
    serve cfg env r = .ok ⟨[(str "Content-Type", str "application/json")], some 401,
        [.json (.object [
          (str "error", .object [
            (str "message", .string (coerceToValidUTF8 (str "Invalid API key provided: "
              ++ (r.header.Get xProviderApiKey).take 4 ++ str "..."
              ++ (r.header.Get xProviderApiKey).drop
                  ((r.header.Get xProviderApiKey).length - 4)))),
            (str "type", .string (str "authentication_error")),
            (str "code", .string (str "invalid_api_key"))])])]⟩
    ∧ (isASCII ((r.header.Get xProviderApiKey).take 4) = true →
        isASCII ((r.header.Get xProviderApiKey).drop
          ((r.header.Get xProviderApiKey).length - 4)) = true →
        serve cfg env r = .ok ⟨[(str "Content-Type", str "application/json")], some 401,
          [.json (.object [
            (str "error", .object [
              (str "message", .string (str "Invalid API key provided: "
                ++ (r.header.Get xProviderApiKey).take 4 ++ str "..."
                ++ (r.header.Get xProviderApiKey).drop
                    ((r.header.Get xProviderApiKey).length - 4))),
              (str "type", .string (str "authentication_error")),
              (str "code", .string (str "invalid_api_key"))])])]⟩) := by
  have hs := serve_protected_rejected cfg env r _ (isProtectedPath_of_suffix _ hpath)
    (checkKey_invalid cfg ResponseWriter.fresh r hlen hkey)
  rw [invalidKey_reply] at hs
  refine ⟨hs, ?_⟩
  intro ha hb
  have hall : isASCII (str "Invalid API key provided: "
      ++ (r.header.Get xProviderApiKey).take 4 ++ str "..."
      ++ (r.header.Get xProviderApiKey).drop
          ((r.header.Get xProviderApiKey).length - 4)) = true := by
    rw [isASCII_append, isASCII_append, isASCII_append, ha, hb]
    decide
  rw [coerceToValidUTF8_of_ascii _ hall] at hs
  exact hs

/-- Witness for C2 amended: key `wrong-key` against configured `sk-test`;
the message is `Invalid API key provided: wron...-key`. -/
theorem invalid_key_unauthorized_witness :
    serve cfgTest envDecodeError
        (requestWithKey (str "/v1/chat/completions") (str "wrong-key") [])
      = .ok ⟨[(str "Content-Type", str "application/json")], some 401,
        [.json (.object [
          (str "error", .object [
            (str "message", .string (str "Invalid API key provided: "
              ++ str "wron" ++ str "..." ++ str "-key")),
            (str "type", .string (str "authentication_error")),
            (str "code", .string (str "invalid_api_key"))])])]⟩ :=
  (invalid_key_unauthorized cfgTest envDecodeError
    (requestWithKey (str "/v1/chat/completions") (str "wrong-key") [])
    (Or.inl (by decide)) (by decide) (by decide)).2 (by decide) (by decide)

/-- For a wrong key of exactly 4 bytes both slices are the key itself. -/
theorem four_byte_key_echoed (cfg : Config) (env : Env) (r : Request)
    (hp : isProtectedPath r.path = true)
    (hlen : (r.header.Get xProviderApiKey).length = 4)
    (hkey : r.header.Get xProviderApiKey ≠ cfg.apiKey) :
    serve cfg env r = .ok ⟨jsonHeader, some 401,
      [.json (invalidKeyBody (r.header.Get xProviderApiKey)
        (r.header.Get xProviderApiKey)).encoded]⟩ := by
  have h := serve_protected_rejected cfg env r _ hp
    (checkKey_invalid cfg ResponseWriter.fresh r (by omega) hkey)
  rw [h, hlen, Nat.sub_self, List.drop_zero, List.take_of_length_le (by omega)]
  rfl

/-- C3 fails on the code: with configured key `sk-test`, the wrong key
`abcd` is answered with the message
`Invalid API key provided: abcd...abcd`, which contains the presented key in
full as a contiguous substring. -/
theorem short_key_echoed_in_full :
    serve cfgTest envDecodeError (requestWithKey (str "/v1/chat/completions") (str "abcd") [])
      = .ok ⟨[(str "Content-Type", str "application/json")], some 401,
        [.json (.object [
          (str "error", .object [
            (str "message", .string (str "Invalid API key provided: abcd...abcd")),
            (str "type", .string (str "authentication_error")),
            (str "code", .string (str "invalid_api_key"))])])]⟩
    ∧ str "abcd" ≠ cfgTest.apiKey
    ∧ str "abcd" <:+: str "Invalid API key provided: abcd...abcd" :=
  ⟨rfl, by decide, ⟨str "Invalid API key provided: ", str "...abcd", rfl⟩⟩

/-- C4 fails on the code: with configured key `sk-test`, the header value
`abc` (3 bytes) makes `checkKey` panic on the slice `key[:4]`, so the handler
yields no response. -/
theorem checkKey_short_key_panics :
    checkKey cfgTest ResponseWriter.fresh (requestWithKey (str "/v1/models") (str "abc") [])
      = .error (.sliceBoundsOutOfRange 4 3)
    ∧ sliceTo (str "abc") 4 = .error (.sliceBoundsOutOfRange 4 3)
    ∧ serve cfgTest envDecodeError
        (requestWithKey (str "/v1/chat/completions") (str "abc") [])
      = .error (.sliceBoundsOutOfRange 4 3) :=
  ⟨rfl, rfl, rfl⟩

/-! ## Authenticated requests (C5, C6, C8) -/

theorem serve_completions_valid (cfg : Config) (env : Env) (r : Request)
    (hp : isCompletionsPath r.path = true)
    (hne : cfg.apiKey ≠ []) (hk : r.header.Get xProviderApiKey = cfg.apiKey) :
    serve cfg env r
      = .ok ⟨jsonHeader, some 200, [.json (chatCompletionBody cfg env r).encoded]⟩ := by
  unfold serve
  rw [handler_eq_run, route_of_completions r.path hp]
  show handleChatCompletions cfg env ResponseWriter.fresh r = _
  unfold handleChatCompletions
  rw [checkKey_valid cfg _ r hne hk]
  rfl

theorem serve_models_valid (cfg : Config) (env : Env) (r : Request)
    (hp : isModelsPath r.path = true)
    (hne : cfg.apiKey ≠ []) (hk : r.header.Get xProviderApiKey = cfg.apiKey) :
    serve cfg env r = .ok ⟨jsonHeader, some 200, [.json (modelsBody cfg env).encoded]⟩ := by
  unfold serve
  rw [handler_eq_run, route_of_models r.path hp]
  show handleModels cfg env ResponseWriter.fresh r = _
  unfold handleModels
  rw [checkKey_valid cfg _ r hne hk]
  rfl

theorem isCompletionsPath_of_suffix (path : GoString)
    (h : HasSuffix path (str "/v1/chat/completions") = true
      ∨ HasSuffix path (str "/v1/completions") = true) : isCompletionsPath path = true := by
  unfold isCompletionsPath
  rcases h with h | h <;> simp [h]

/-- Whatever the draw, the sentence written is one of the four of the
source, unchanged by the encoder. -/
theorem canned_sentence (i : Fin responses.length) :
    coerceToValidUTF8 (responses.get i)
        = str "Today it is partially cloudy and raining. Testing, testing 1,2,3"
    ∨ coerceToValidUTF8 (responses.get i)
        = str "The API key was validated successfully. This is a simulated response."
    ∨ coerceToValidUTF8 (responses.get i)
        = str "Hello from the key-validating provider simulator!"
    ∨ coerceToValidUTF8 (responses.get i)
        = str "External model inference is working end-to-end with API key injection." := by
  match i with
  | ⟨0, _⟩ => exact Or.inl rfl
  | ⟨1, _⟩ => exact Or.inr (Or.inl rfl)
  | ⟨2, _⟩ => exact Or.inr (Or.inr (Or.inl rfl))
  | ⟨3, _⟩ => exact Or.inr (Or.inr (Or.inr rfl))
  | ⟨n + 4, h⟩ => exact absurd h (by simp [responses])

/-- C5, as stated, fails on `/v1/models` when the configured model is not
valid UTF-8: with `--model` the single byte `FF` and the right key, the reply
has status 200 and its `id` is U+FFFD (bytes `EF BF BD`), not the configured
model. -/
theorem model_id_claim_fails :
    serve cfgInvalidModel envDecodeError
        (requestWithKey (str "/v1/models") (str "sk-test") [])
      = .ok ⟨[(str "Content-Type", str "application/json")], some 200,
        [.json (.object [
          (str "object", .string (str "list")),
          (str "data", .array [
            .object [
              (str "id", .string [0xEF, 0xBF, 0xBD]),
              (str "object", .string (str "model")),
              (str "created", .number 0),
              (str "owned_by", .string (str "provider-sim")),
              (str "ready", .bool true)]])])]⟩
    ∧ cfgInvalidModel.model = [0xFF]
    ∧ cfgInvalidModel.apiKey = str "sk-test"
    ∧ ([0xEF, 0xBF, 0xBD] : GoString) ≠ cfgInvalidModel.model :=
  ⟨rfl, rfl, rfl, by decide⟩

/-- C5, amended: with a non-empty configured key and a request whose
`X-Provider-Api-Key` equals it, whatever the key is, a protected endpoint
answers with status 200. On the completions paths the body has object
`chat.completion` and a `choices` array of exactly one element, with index 0,
finish_reason `stop`, message role `assistant` and message content one of the
four canned sentences. On `/v1/models` the body has object `list` and a `data`
array of exactly one element, with object `model`, owned_by `provider-sim`,
ready true, and id the configured model as `encoding/json` writes it: every
byte that is not part of a valid UTF-8 sequence replaced by U+FFFD, so the
configured model itself when that is ASCII. -/
theorem valid_key_ok (cfg : Config) (env : Env) (r : Request)
    (hne : cfg.apiKey ≠ []) (hk : r.header.Get xProviderApiKey = cfg.apiKey) :
    ((HasSuffix r.path (str "/v1/chat/completions") = true
        ∨ HasSuffix r.path (str "/v1/completions") = true) →
      ∃ w body choice content, serve cfg env r = .ok w ∧ w.status = some 200
        ∧ w.jsonBody = some body
        ∧ body.get? (str "object") = some (.string (str "chat.completion"))
        ∧ body.get? (str "choices") = some (.array [choice])
        ∧ choice.get? (str "index") = some (.number 0)
        ∧ choice.get? (str "finish_reason") = some (.string (str "stop"))
        ∧ choice.getPath [str "message", str "role"] = some (.string (str "assistant"))
        ∧ choice.getPath [str "message", str "content"] = some (.string content)
        ∧ (content = str "Today it is partially cloudy and raining. Testing, testing 1,2,3"
          ∨ content
            = str "The API key was validated successfully. This is a simulated response."
          ∨ content = str "Hello from the key-validating provider simulator!"
          ∨ content
            = str "External model inference is working end-to-end with API key injection."))
    ∧ (HasSuffix r.path (str "/v1/models") = true →
      ∃ w body entry, serve cfg env r = .ok w ∧ w.status = some 200
        ∧ w.jsonBody = some body
        ∧ body.get? (str "object") = some (.string (str "list"))
        ∧ body.get? (str "data") = some (.array [entry])
        ∧ entry.get? (str "id") = some (.string (coerceToValidUTF8 cfg.model))
        ∧ (isASCII cfg.model = true → entry.get? (str "id") = some (.string cfg.model))
        ∧ entry.get? (str "object") = some (.string (str "model"))
        ∧ entry.get? (str "owned_by") = some (.string (str "provider-sim"))
        ∧ entry.get? (str "ready") = some (.bool true)) := by
  constructor
  · intro hp
    exact ⟨_, _, _, _,
      serve_completions_valid cfg env r (isCompletionsPath_of_suffix _ hp) hne hk,
      rfl, rfl, rfl, rfl, rfl, rfl, rfl, rfl, canned_sentence env.pickDraw⟩
  · intro hp
    refine ⟨_, _, _, serve_models_valid cfg env r hp hne hk,
      rfl, rfl, rfl, rfl, rfl, ?_, rfl, rfl, rfl⟩
    intro ha
    have e := coerceToValidUTF8_of_ascii cfg.model ha
    exact (show _ = some (JsonValue.string (coerceToValidUTF8 cfg.model)) from rfl).trans
      (by rw [e])

/-- Witness for C5 amended: key `sk-test` with configured model
`gpt-4-external`, on `/v1/chat/completions` and on `/openai/v1/models`. -/
theorem valid_key_ok_witness :
    (∃ w body choice content, serve cfgTest envDecodeFoo
        (requestWithKey (str "/v1/chat/completions") (str "sk-test") []) = .ok w
      ∧ w.status = some 200
      ∧ w.jsonBody = some body
      ∧ body.get? (str "object") = some (.string (str "chat.completion"))
      ∧ body.get? (str "choices") = some (.array [choice])
      ∧ choice.get? (str "index") = some (.number 0)
      ∧ choice.get? (str "finish_reason") = some (.string (str "stop"))
      ∧ choice.getPath [str "message", str "role"] = some (.string (str "assistant"))
      ∧ choice.getPath [str "message", str "content"] = some (.string content)
      ∧ (content = str "Today it is partially cloudy and raining. Testing, testing 1,2,3"
        ∨ content
          = str "The API key was validated successfully. This is a simulated response."
        ∨ content = str "Hello from the key-validating provider simulator!"
        ∨ content
          = str "External model inference is working end-to-end with API key injection."))
    ∧ (∃ w body entry, serve cfgTest envDecodeFoo
        (requestWithKey (str "/openai/v1/models") (str "sk-test") []) = .ok w
      ∧ w.status = some 200
      ∧ w.jsonBody = some body
      ∧ body.get? (str "object") = some (.string (str "list"))
      ∧ body.get? (str "data") = some (.array [entry])
      ∧ entry.get? (str "id") = some (.string (coerceToValidUTF8 (str "gpt-4-external")))
      ∧ (isASCII (str "gpt-4-external") = true →
          entry.get? (str "id") = some (.string (str "gpt-4-external")))
      ∧ entry.get? (str "object") = some (.string (str "model"))
      ∧ entry.get? (str "owned_by") = some (.string (str "provider-sim"))
      ∧ entry.get? (str "ready") = some (.bool true)) :=
  ⟨(valid_key_ok cfgTest envDecodeFoo
      (requestWithKey (str "/v1/chat/completions") (str "sk-test") [])
      (by decide) rfl).1 (Or.inl (by decide)),
   (valid_key_ok cfgTest envDecodeFoo
      (requestWithKey (str "/openai/v1/models") (str "sk-test") [])
      (by decide) rfl).2 (by decide)⟩

/-- C6: for every authenticated completions request and every outcome of
the random draws, the usage of the reply has `1 ≤ prompt_tokens ≤ 5`,
`5 ≤ completion_tokens ≤ 24` and
`total_tokens = prompt_tokens + completion_tokens`. -/
theorem usage_bounds (cfg : Config) (env : Env) (r : Request)
    (hp : HasSuffix r.path (str "/v1/chat/completions") = true
      ∨ HasSuffix r.path (str "/v1/completions") = true)
    (hne : cfg.apiKey ≠ []) (hk : r.header.Get xProviderApiKey = cfg.apiKey) :
    ∃ w body, ∃ p c t : Int, serve cfg env r = .ok w ∧ w.jsonBody = some body
      ∧ body.getPath [str "usage", str "prompt_tokens"] = some (.number p)
      ∧ body.getPath [str "usage", str "completion_tokens"] = some (.number c)
      ∧ body.getPath [str "usage", str "total_tokens"] = some (.number t)
      ∧ 1 ≤ p ∧ p ≤ 5 ∧ 5 ≤ c ∧ c ≤ 24 ∧ t = p + c := by
  have h1 := env.promptDraw.isLt
  have h2 := env.completionDraw.isLt
  exact ⟨_, _, _, _, _,
    serve_completions_valid cfg env r (isCompletionsPath_of_suffix _ hp) hne hk,
    rfl, rfl, rfl, rfl, by omega, by omega, by omega, by omega, rfl⟩

/-- Witness for C6: draws 2 and 7 give usage 3, 12 and 15. -/
theorem usage_bounds_witness :
    ∃ w body, ∃ p c t : Int, serve cfgTest envDecodeFoo
        (requestWithKey (str "/v1/chat/completions") (str "sk-test") []) = .ok w
      ∧ w.jsonBody = some body
      ∧ body.getPath [str "usage", str "prompt_tokens"] = some (.number p)
      ∧ body.getPath [str "usage", str "completion_tokens"] = some (.number c)
      ∧ body.getPath [str "usage", str "total_tokens"] = some (.number t)
      ∧ 1 ≤ p ∧ p ≤ 5 ∧ 5 ≤ c ∧ c ≤ 24 ∧ t = p + c :=
  usage_bounds cfgTest envDecodeFoo
    (requestWithKey (str "/v1/chat/completions") (str "sk-test") [])
    (Or.inl (by decide)) (by decide) rfl

/-! ## Decoding the request body (C8) -/

theorem requestModel_of_error (cfg : Config) (env : Env) (r : Request)
    (h : (env.decodeModel r.body).2 = true) : requestModel cfg env r = cfg.model := by
  unfold requestModel
  simp only [h, if_true]
  split <;> rfl

theorem requestModel_of_empty (cfg : Config) (env : Env) (r : Request)
    (h : (env.decodeModel r.body).1 = []) : requestModel cfg env r = cfg.model := by
  unfold requestModel
  simp only [h]
  cases (env.decodeModel r.body).2
  · rfl
  · simp only [if_true]
    split <;> rfl

theorem requestModel_of_decoded (cfg : Config) (env : Env) (r : Request)
    (h : (env.decodeModel r.body).2 = false) (hm : (env.decodeModel r.body).1 ≠ []) :
    requestModel cfg env r = (env.decodeModel r.body).1 := by
  unfold requestModel
  simp only [h, Bool.false_eq_true, if_false]
  rw [if_neg (by simpa using hm)]

theorem isPlain_cons (b : UInt8) (m : GoString) :
    isPlain (b :: m) = true ↔ (0x20 ≤ b ∧ b < 0x80 ∧ b ≠ 0x22 ∧ b ≠ 0x5C) ∧ isPlain m = true := by
  simp only [isPlain, List.all_cons, Bool.and_eq_true, decide_eq_true_eq]

theorem isASCII_of_isPlain (m : GoString) (h : isPlain m = true) : isASCII m = true := by
  induction m with
  | nil => rfl
  | cons b m ih =>
    obtain ⟨hb, hm⟩ := (isPlain_cons b m).mp h
    simp only [isASCII, List.all_cons, Bool.and_eq_true, decide_eq_true_eq]
    exact ⟨hb.2.1, ih hm⟩

/-- Inside a string literal the scanner reads plain bytes on, keeping them. -/
theorem readValue_inString_plain (m : GoString) (h : isPlain m = true)
    (ps : List ParseState) (top : TopKind) (key cur model : GoString) (te : Bool)
    (rest : GoString) :
    readValue ⟨.inString, ps, top, key, cur, model, te⟩ (m ++ rest)
      = readValue ⟨.inString, ps, top, key, cur ++ m, model, te⟩ rest := by
  induction m generalizing cur with
  | nil => simp
  | cons b m ih =>
    obtain ⟨⟨h1, _, h3, h4⟩, hm⟩ := (isPlain_cons b m).mp h
    have hlt : ¬ b < 0x20 := by
      intro hh
      rw [UInt8.le_def] at h1
      rw [UInt8.lt_def] at hh
      exact absurd hh (BitVec.not_lt.mpr h1)
    have hfeed : Decoder.feed ⟨.inString, ps, top, key, cur, model, te⟩ b
        = .more ⟨.inString, ps, top, key, cur ++ [b], model, te⟩ := by
      simp only [Decoder.feed, h3, h4, hlt, if_false]
    rw [List.cons_append, readValue, hfeed]
    simp only []
    rw [ih hm, List.append_assoc]
    rfl

/-- The bytes up to the opening quote of the value of `modelBody`. -/
theorem readValue_modelBody_open (x : GoString) :
    readValue Decoder.init (str "\x7b\"model\":\"" ++ x)
      = readValue ⟨.inString, [.objectValue], .object, str "model", [], [], false⟩ x := by
  rfl

/-- The closing quote and brace of `modelBody`. -/
theorem readValue_modelBody_close (cur : GoString) :
    readValue ⟨.inString, [.objectValue], .object, str "model", cur, [], false⟩ (str "\"\x7d")
      = some ⟨.endTop, [], .object, str "model", cur, unquote cur, false⟩ := by
  rfl

theorem unquoteLoop_plain (m : GoString) (h : isPlain m = true) : unquoteLoop 0 m = m := by
  induction m with
  | nil => rfl
  | cons b m ih =>
    obtain ⟨⟨_, h2, _, h4⟩, hm⟩ := (isPlain_cons b m).mp h
    have hs : unquoteStep (b :: m) = ([b], 1) := by
      simp only [unquoteStep, h4, h2, if_false, if_true]
    simp only [unquoteLoop, hs, ih hm]
    rfl

/-- A body whose only member is `model` with a plain string decodes to that
string, without error. -/
theorem jsonDecodeModel_modelBody (m : GoString) (h : isPlain m = true) :
    jsonDecodeModel (modelBody m) = (m, false) := by
  unfold jsonDecodeModel modelBody
  rw [List.append_assoc, readValue_modelBody_open, readValue_inString_plain m h,
    List.nil_append, readValue_modelBody_close]
  simp only [unquote, unquoteLoop_plain m h]

/-- The decoder on sample bodies: Scenario 2 of the specification; an
absent body; white space only; a body cut short; text that is not JSON; an
object without `model`; an empty `model`; `model` of another type; `null`;
a member name in another case, with other members and trailing bytes. -/
theorem jsonDecodeModel_samples :
    jsonDecodeModel (str "\x7b\"model\":\"foo\"\x7d") = (str "foo", false)
    ∧ jsonDecodeModel [] = ([], true)
    ∧ jsonDecodeModel (str "  \n") = ([], true)
    ∧ jsonDecodeModel (str "\x7b\"model\":") = ([], true)
    ∧ jsonDecodeModel (str "not json") = ([], true)
    ∧ jsonDecodeModel (str "\x7b\x7d") = ([], false)
    ∧ jsonDecodeModel (str "\x7b\"model\":\"\"\x7d") = ([], false)
    ∧ jsonDecodeModel (str "\x7b\"model\":5\x7d") = ([], true)
    ∧ jsonDecodeModel (str "null") = ([], false)
    ∧ jsonDecodeModel (str " \x7b \"n\": [1, -2.5e3, true], \"Model\": \"a\\u0041\" \x7d x")
        = (str "aA", false) := by
  refine ⟨by decide, by decide, by decide, by decide, by decide, by decide, by decide,
    by decide, by decide, by decide⟩

/-- The `model` member of the completions reply. -/
theorem chatCompletionBody_model (cfg : Config) (env : Env) (r : Request) :
    (chatCompletionBody cfg env r).encoded.get? (str "model")
      = some (.string (coerceToValidUTF8 (requestModel cfg env r))) := rfl

/-- C8, as stated, fails, at two authenticated requests to
`/v1/chat/completions`. (1) With `--model` the single byte `FF`, which is not
valid UTF-8, and no body, decoding fails, the reply has status 200 and its
`model` is U+FFFD (bytes `EF BF BD`), not the configured model. (2) With the
configured model `gpt-4-external` and the body `{"Model":"foo"}`, which has no
member named `model`, the reply's `model` is `foo`, not the configured model:
`encoding/json` matches member names to the field without regard to case. -/
theorem default_model_claim_fails :
    (jsonDecodeModel [] = ([], true)
      ∧ (∃ w body, serve cfgInvalidModel envJson
            (requestWithKey (str "/v1/chat/completions") (str "sk-test") []) = .ok w
          ∧ w.status = some 200 ∧ w.jsonBody = some body
          ∧ body.get? (str "model") = some (.string [0xEF, 0xBF, 0xBD]))
      ∧ cfgInvalidModel.model = [0xFF]
      ∧ ([0xEF, 0xBF, 0xBD] : GoString) ≠ cfgInvalidModel.model)
    ∧ (jsonDecodeModel (str "\x7b\"Model\":\"foo\"\x7d") = (str "foo", false)
      ∧ (∃ w body, serve cfgTest envJson
            (requestWithKey (str "/v1/chat/completions") (str "sk-test")
              (str "\x7b\"Model\":\"foo\"\x7d")) = .ok w
          ∧ w.status = some 200 ∧ w.jsonBody = some body
          ∧ body.get? (str "model") = some (.string (str "foo")))
      ∧ cfgTest.model = str "gpt-4-external"
      ∧ str "foo" ≠ cfgTest.model) :=
  ⟨⟨by decide,
      ⟨_, _, serve_completions_valid cfgInvalidModel envJson
          (requestWithKey (str "/v1/chat/completions") (str "sk-test") [])
          (by decide) (by decide) rfl, rfl, rfl, rfl⟩,
      rfl, by decide⟩,
    ⟨by decide,
      ⟨_, _, serve_completions_valid cfgTest envJson
          (requestWithKey (str "/v1/chat/completions") (str "sk-test")
            (str "\x7b\"Model\":\"foo\"\x7d"))
          (by decide) (by decide) rfl, rfl, rfl, rfl⟩,
      rfl, by decide⟩⟩

/-- C8, amended: for every authenticated completions request whose body is
decoded as `encoding/json` decodes it, the reply has status 200, whatever the
body. Its `model` is the body's model when the body decodes without error to
a non-empty model: for a body `{"model":"m"}` with `m` a non-empty plain ASCII
string it is exactly `m`; member names are matched as `encoding/json` matches
them to the field tagged `model`, by exact name or else without regard to
case, so `{"Model":"foo"}` gives `foo`. It is the configured model when the
body is absent, fails to decode (cut short, not JSON, `model` of another
type), or decodes to an empty model (member empty, or no matching member).
The configured model appears as `encoding/json` writes
it: every byte that is not part of a valid UTF-8 sequence replaced by U+FFFD,
so unchanged when it is ASCII. -/
theorem model_echo_or_default (cfg : Config) (env : Env) (r : Request)
    (hp : HasSuffix r.path (str "/v1/chat/completions") = true
      ∨ HasSuffix r.path (str "/v1/completions") = true)
    (hne : cfg.apiKey ≠ []) (hk : r.header.Get xProviderApiKey = cfg.apiKey)
    (henv : env.decodeModel = jsonDecodeModel) :
    ∃ w body, serve cfg env r = .ok w ∧ w.status = some 200 ∧ w.jsonBody = some body
      ∧ (∀ m, m ≠ [] → isPlain m = true → r.body = modelBody m →
          body.get? (str "model") = some (.string m))
      ∧ (∀ m, m ≠ [] → jsonDecodeModel r.body = (m, false) →
          body.get? (str "model") = some (.string (coerceToValidUTF8 m)))
      ∧ (r.body = [] →
          body.get? (str "model") = some (.string (coerceToValidUTF8 cfg.model)))
      ∧ ((jsonDecodeModel r.body).2 = true →
          body.get? (str "model") = some (.string (coerceToValidUTF8 cfg.model)))
      ∧ ((jsonDecodeModel r.body).1 = [] →
          body.get? (str "model") = some (.string (coerceToValidUTF8 cfg.model)))
      ∧ ((r.body = str "\x7b\"model\":" ∨ r.body = str "not json"
            ∨ r.body = str "\x7b\"model\":5\x7d" ∨ r.body = str "\x7b\x7d"
            ∨ r.body = str "\x7b\"model\":\"\"\x7d") →
          body.get? (str "model") = some (.string (coerceToValidUTF8 cfg.model)))
      ∧ (r.body = str "\x7b\"Model\":\"foo\"\x7d" →
          body.get? (str "model") = some (.string (str "foo")))
      ∧ (isASCII cfg.model = true → coerceToValidUTF8 cfg.model = cfg.model) := by
  have hb := chatCompletionBody_model cfg env r
  have herr : (jsonDecodeModel r.body).2 = true →
      (chatCompletionBody cfg env r).encoded.get? (str "model")
        = some (.string (coerceToValidUTF8 cfg.model)) := by
    intro h
    rw [hb, requestModel_of_error cfg env r (by rw [henv]; exact h)]
  have hemp : (jsonDecodeModel r.body).1 = [] →
      (chatCompletionBody cfg env r).encoded.get? (str "model")
        = some (.string (coerceToValidUTF8 cfg.model)) := by
    intro h
    rw [hb, requestModel_of_empty cfg env r (by rw [henv]; exact h)]
  have hdec : ∀ m, m ≠ [] → jsonDecodeModel r.body = (m, false) →
      (chatCompletionBody cfg env r).encoded.get? (str "model")
        = some (.string (coerceToValidUTF8 m)) := by
    intro m hm h
    rw [hb, requestModel_of_decoded cfg env r (by rw [henv, h]) (by rw [henv, h]; exact hm),
      henv, h]
  refine ⟨_, _, serve_completions_valid cfg env r (isCompletionsPath_of_suffix _ hp) hne hk,
    rfl, rfl, ?_, hdec, ?_, herr, hemp, ?_, ?_, coerceToValidUTF8_of_ascii cfg.model⟩
  · intro m hm hpl hbody
    have h := hdec m hm (by rw [hbody]; exact jsonDecodeModel_modelBody m hpl)
    rw [coerceToValidUTF8_of_ascii m (isASCII_of_isPlain m hpl)] at h
    exact h
  · intro h0
    exact herr (by rw [h0]; decide)
  · intro h
    rcases h with h | h | h | h | h
    · exact herr (by rw [h]; decide)
    · exact herr (by rw [h]; decide)
    · exact herr (by rw [h]; decide)
    · exact hemp (by rw [h]; decide)
    · exact hemp (by rw [h]; decide)
  · intro h
    exact hdec (str "foo") (by decide) (by rw [h]; decide)

/-- Witness for C8 amended: Scenario 2 of the specification. With key
`sk-test` and body `{"model":"foo"}` the reply has status 200 and model
`foo`. -/
theorem model_echo_or_default_witness :
    modelBody (str "foo") = str "\x7b\"model\":\"foo\"\x7d"
    ∧ ∃ w body, serve cfgTest envJson
        (requestWithKey (str "/v1/chat/completions") (str "sk-test")
          (str "\x7b\"model\":\"foo\"\x7d")) = .ok w
      ∧ w.status = some 200 ∧ w.jsonBody = some body
      ∧ body.get? (str "model") = some (.string (str "foo")) :=
  ⟨by decide,
    match model_echo_or_default cfgTest envJson
      (requestWithKey (str "/v1/chat/completions") (str "sk-test")
        (str "\x7b\"model\":\"foo\"\x7d"))
      (Or.inl (by decide)) (by decide) rfl rfl with
    | ⟨w, body, hw, hs, hb, hm, _⟩ =>
      ⟨w, body, hw, hs, hb, hm (str "foo") (by decide) (by decide) (by decide)⟩⟩

end ProviderSim
